import Mathlib

/-!
Shallow embedding of `nbapi/nbapi.py` (NationalBank client).

HTTP transport is modelled as explicit function arguments: each operation
that performs a request takes a `server` function from the request body it
would POST to the response body it receives, so theorems can speak both
about the request that is sent and about how the response is processed.
Dates are modelled as integer day numbers with day `0` a Monday, so that
`weekday d = d % 7` agrees with Python's `datetime.weekday()`
(Monday = 0, ..., Saturday = 5, Sunday = 6); rendering a day number as a
`YYYY-MM-DD` string is the datetime library's job and stays outside the
model. Python raising an exception is modelled as `Except.error`; reading
a never-assigned local variable (a Python `UnboundLocalError`) is the
`Err.unboundLocal` error.
-/

set_option autoImplicit false

namespace NBApi

/-- Exceptions the embedded code can raise. Each constructor corresponds to
one `raise` site in `nbapi.py`, except `unboundLocal` (Python's implicit
`UnboundLocalError` when a local variable is read before assignment),
`keyError` (dict lookup of a missing key) and `indexError` (list index out
of range). -/
inductive Err where
  | authFailure
  | accountNotFound
  | orderRejected
  | orderNotFound
  | noPositions
  | unboundLocal (name : String)
  | keyError
  | indexError
  deriving Repr, DecidableEq

/-! ### Python string primitives (ASCII fragment) -/

/-- Python `str.upper()` on ASCII strings: uppercase every character. -/
def pyUpper (s : String) : String :=
  ⟨s.data.map Char.toUpper⟩

/-- Helper for `pyTitle`: `prevAlpha` records whether the previous character
was alphabetic. -/
def pyTitleAux : Bool → List Char → List Char
  | _, [] => []
  | prevAlpha, c :: cs =>
    if c.isAlpha then
      (if prevAlpha then c.toLower else c.toUpper) :: pyTitleAux true cs
    else
      c :: pyTitleAux false cs

/-- Python `str.title()` on ASCII strings: the first letter of each maximal
run of alphabetic characters is uppercased, the rest lowercased. -/
def pyTitle (s : String) : String :=
  ⟨pyTitleAux false s.data⟩

/-- Python `needle in hay` substring containment: the characters of
`needle` occur contiguously inside those of `hay`. -/
def pyContains (hay needle : String) : Bool :=
  decide (needle.data <:+: hay.data)

/-- Helper for `pySplitSemi`: `acc` holds the reversed characters of the
current field. -/
def pySplitSemiAux (acc : List Char) : List Char → List String
  | [] => [String.mk acc.reverse]
  | c :: cs =>
    if c = ';' then String.mk acc.reverse :: pySplitSemiAux [] cs
    else pySplitSemiAux (c :: acc) cs

/-- Python `s.split(';')`: split at every semicolon, keeping empty
fields. -/
def pySplitSemi (s : String) : List String :=
  pySplitSemiAux [] s.data

/-! ### Dates -/

/-- Day-of-week of an integer day number, with day 0 a Monday; agrees with
Python `datetime.weekday()` (Saturday = 5, Sunday = 6). -/
def weekday (d : Int) : Int :=
  d % 7

/-- The weekend rollover of `validate` (nbapi.py lines 216-221): a date
falling on a Saturday moves 2 days later, on a Sunday 1 day later,
otherwise it is unchanged. -/
def adjustExpiry (d : Int) : Int :=
  if weekday d = 5 then d + 2
  else if weekday d = 6 then d + 1
  else d

/-- The `(expiry, expiry_date)` pair computed by `validate`
(nbapi.py lines 210-223): offset 0 means mode `DAY` with no date, any
other offset means mode `DATE` with the weekend-adjusted day
`today + offset`. -/
def expiryPair (today days_till_expiration : Int) : String × Option Int :=
  if days_till_expiration = 0 then ("DAY", none)
  else ("DATE", some (adjustExpiry (today + days_till_expiration)))

/-! ### Wire data structures -/

/-- `marketSymbol` object of the validation request. -/
structure MarketSymbol where
  symbolCd : String
  symbolCurrCd : String
  symbolCntryCd : String
  deriving Repr, DecidableEq

/-- `finInstrument` object of the validation request. -/
structure FinInstrument where
  marketSymbol : MarketSymbol
  finInstrumentTypeCd : String
  deriving Repr, DecidableEq

/-- `stockOrder` object as built by `validate` and echoed by the server. -/
structure StockOrder where
  ordId : Option String
  acctNo : String
  operation : String
  ordQty : String
  expiry : String
  expiryDt : Option Int
  restriction : String
  phone : String
  finInstrument : FinInstrument
  limitPrice : Option Rat
  priceType : String
  stopLimitPrice : Option Rat
  deriving Repr, DecidableEq

/-- Body POSTed to `/stock-orders/validation`. -/
structure ValidationData where
  stockOrder : StockOrder
  mode : String
  deriving Repr, DecidableEq

/-- One entry of the `messageList` of a validation response. -/
structure ValidationMessage where
  msgId : String
  message : String
  deriving Repr, DecidableEq

/-- Validation response body: `data.stockOrder` plus the optional
`messageList` (the key may be absent, hence `Option`). -/
structure ValidationResponse where
  stockOrder : StockOrder
  messageList : Option (List ValidationMessage)
  deriving Repr, DecidableEq

/-- Dictionary returned by `validate`: the echoed `stockOrder` plus the
`warnsNoList` key, which is only present when the response carried a
`messageList`. -/
structure OrderData where
  stockOrder : StockOrder
  warnsNoList : Option (List String)
  deriving Repr, DecidableEq

/-- Response body of the order-submission POST (`data.stockOrder`). -/
structure OrderResponse where
  stockOrder : StockOrder
  deriving Repr, DecidableEq

/-! ### validate (nbapi.py lines 169-270) -/

/-- The currency-to-country mapping of nbapi.py lines 200-203. The Python
code assigns the local `country` only for `USD` and `CAD`; `none` models
the variable staying unbound. -/
def country (currency : String) : Option String :=
  if currency = "USD" then some "USA"
  else if currency = "CAD" then some "CAN"
  else none

/-- The warning message text that marks a hard rejection
(nbapi.py line 261). -/
def repMsg : String :=
  "your order will be processed by one of our representatives"

/-- The loop of nbapi.py lines 260-264: raise on the first message whose
text mentions representative processing, otherwise collect every `msgId`. -/
def collectWarnings : List ValidationMessage → Except Err (List String)
  | [] => .ok []
  | m :: ms =>
    if pyContains m.message repMsg then
      .error Err.orderRejected
    else do
      let rest ← collectWarnings ms
      .ok (m.msgId :: rest)

/-- The `validation_data` request body built by `validate`
(nbapi.py lines 195-250). Reading `country` when the currency matched
neither branch is Python's `UnboundLocalError`, hence the `Except`.
The `phone` argument of `validate` is not used here: the wire value is the
hardcoded `000-000-0000` placeholder. -/
def validationRequest (today : Int) (account_id side : String) (qty : Int)
    (symbol currency : String) (limit_price : Option Rat)
    (days_till_expiration : Int) : Except Err ValidationData :=
  let symbol := pyUpper symbol
  let currency := pyUpper currency
  let side := pyUpper side
  let qtyS := toString qty
  let type := if limit_price.isSome then "SPECIFIC" else "MARKET"
  let ed := expiryPair today days_till_expiration
  match country currency with
  | none => .error (Err.unboundLocal "country")
  | some cntry =>
      .ok { stockOrder :=
              { ordId := none
                acctNo := account_id
                operation := side
                ordQty := qtyS
                expiry := ed.1
                expiryDt := ed.2
                restriction := "NONE"
                phone := "000-000-0000"
                finInstrument :=
                  { marketSymbol :=
                      { symbolCd := symbol
                        symbolCurrCd := currency
                        symbolCntryCd := cntry }
                    finInstrumentTypeCd := "STOCK" }
                limitPrice := limit_price
                priceType := type
                stopLimitPrice := none }
            mode := "INSERT" }

/-- `NationalBank.validate` (nbapi.py lines 169-270). `server` stands for
the POST to the validation endpoint: it maps the request body that is sent
to the response body received. The caller-supplied `phone` is written into
the returned `stockOrder` only after the response comes back. -/
def validate (today : Int) (account_id side : String) (qty : Int)
    (symbol currency phone : String) (limit_price : Option Rat)
    (days_till_expiration : Int)
    (server : ValidationData → ValidationResponse) : Except Err OrderData := do
  let req ← validationRequest today account_id side qty symbol currency
      limit_price days_till_expiration
  let response := server req
  let base : OrderData := { stockOrder := response.stockOrder, warnsNoList := none }
  let withWarns : OrderData ←
    match response.messageList with
    | none => pure base
    | some msgs => do
        let warning_list ← collectWarnings msgs
        pure { base with warnsNoList := some warning_list }
  pure { withWarns with stockOrder := { withWarns.stockOrder with phone := phone } }

/-! ### Order placement (nbapi.py lines 273-335) -/

/-- `NationalBank.place_market_order` (nbapi.py lines 273-301): validate,
then POST the returned payload to the order endpoint and return the
broker-assigned `ordId`. Besides the result, the list of bodies POSTed to
the order-submission endpoint is returned, so that theorems can talk about
what was sent (it is `[order_data]` on success, `[]` when validation
raised). -/
def place_market_order (today : Int) (symbol account_id currency side : String)
    (qty : Int) (phone : String)
    (validServer : ValidationData → ValidationResponse)
    (orderServer : OrderData → OrderResponse) :
    Except Err (Option String) × List OrderData :=
  match validate today account_id side qty symbol currency phone none 0 validServer with
  | .error e => (.error e, [])
  | .ok order_data =>
      (.ok ((orderServer order_data).stockOrder.ordId), [order_data])

/-- `NationalBank.place_limit_order` (nbapi.py lines 303-335): same as
`place_market_order` but validating with the supplied limit price and
expiration offset. -/
def place_limit_order (today : Int) (symbol account_id currency side : String)
    (qty : Int) (phone : String) (limit_price : Rat)
    (days_till_expiration : Int)
    (validServer : ValidationData → ValidationResponse)
    (orderServer : OrderData → OrderResponse) :
    Except Err (Option String) × List OrderData :=
  match validate today account_id side qty symbol currency phone
      (some limit_price) days_till_expiration validServer with
  | .error e => (.error e, [])
  | .ok order_data =>
      (.ok ((orderServer order_data).stockOrder.ordId), [order_data])

/-! ### get_account_id (nbapi.py lines 123-146) -/

/-- One entry of the `accountList` of the portfolios response. -/
structure Account where
  acctTypeDesc : String
  acctNo : String
  deriving Repr, DecidableEq

/-- The scan loop of `get_account_id` (nbapi.py lines 142-146) over the
server-returned `accountList`, after normalization. -/
def accountScan (currency_type account_type : String) :
    List Account → Except Err String
  | [] => .error Err.accountNotFound
  | item :: rest =>
    if pyContains item.acctTypeDesc currency_type &&
        pyContains item.acctTypeDesc account_type then
      .ok item.acctNo
    else
      accountScan currency_type account_type rest

/-- `NationalBank.get_account_id` (nbapi.py lines 123-146): uppercase the
currency, title-case the account type, and return the `acctNo` of the
first account whose description contains both. The server-returned
`accountList` is passed in place of the GET. -/
def get_account_id (currency_type account_type : String)
    (accountList : List Account) : Except Err String :=
  accountScan (pyUpper currency_type) (pyTitle account_type) accountList

/-! ### get_order / get_order_status (nbapi.py lines 385-446) -/

/-- One entry of the server-returned `orderList`. -/
structure OrderRecord where
  ordId : String
  operation : String
  ordQty : Rat
  execQty : Rat
  avgExecPrice : Rat
  orderOpen : Bool
  deriving Repr, DecidableEq

/-- The dictionary `get_order` returns. -/
structure OrderReturn where
  order_id : String
  operation : String
  order_quantity : Rat
  filled_quantity : Rat
  fill_price : Rat
  order_open : Bool
  deriving Repr, DecidableEq

/-- Projection of an `orderList` entry into `get_order`'s return dict
(nbapi.py lines 413-420). -/
def mkOrderReturn (item : OrderRecord) : OrderReturn :=
  { order_id := item.ordId
    operation := item.operation
    order_quantity := item.ordQty
    filled_quantity := item.execQty
    fill_price := item.avgExecPrice
    order_open := item.orderOpen }

/-- The scan loop shared by `get_order` and `get_order_status`
(nbapi.py lines 405-408 and 442-444): first entry with matching `ordId`. -/
def findOrder (order_id : String) : List OrderRecord → Option OrderRecord
  | [] => none
  | item :: rest =>
    if item.ordId = order_id then some item else findOrder order_id rest

/-- `NationalBank.get_order` (nbapi.py lines 385-422): first matching entry
projected into a return dict, `Order not Found` otherwise. The
server-returned `orderList` is passed in place of the GET. -/
def get_order (orderList : List OrderRecord) (order_id : String) :
    Except Err OrderReturn :=
  match findOrder order_id orderList with
  | none => .error Err.orderNotFound
  | some item => .ok (mkOrderReturn item)

/-- `NationalBank.get_order_status` (nbapi.py lines 424-446): the
`orderOpen` flag of the first matching entry, `Order not Found`
otherwise. -/
def get_order_status (orderList : List OrderRecord) (order_id : String) :
    Except Err Bool :=
  match findOrder order_id orderList with
  | none => .error Err.orderNotFound
  | some item => .ok item.orderOpen

/-! ### get_positions (nbapi.py lines 456-490) -/

/-- `positionEval` object of a position entry. -/
structure PositionEval where
  avgCostPrice : Rat
  pnlAmt : Rat
  pnlPerc : Rat
  marketValueAmt : Rat
  deriving Repr, DecidableEq

/-- `finInstrument` object of a position entry: only `quoteIdKey` is
read. -/
structure PosFinInstrument where
  quoteIdKey : String
  deriving Repr, DecidableEq

/-- One entry of the server-returned `positionList`. -/
structure Position where
  finInstrument : PosFinInstrument
  quantity : Rat
  positionEval : PositionEval
  deriving Repr, DecidableEq

/-- The per-symbol dictionary value emitted by `get_positions`
(nbapi.py lines 482-488). -/
structure PositionReturn where
  quantity : Rat
  cost : Rat
  change : Rat
  change_per : Rat
  market_val : Rat
  deriving Repr, DecidableEq

/-- Projection of a position entry into the per-symbol dict value. -/
def mkPositionReturn (item : Position) : PositionReturn :=
  { quantity := item.quantity
    cost := item.positionEval.avgCostPrice
    change := item.positionEval.pnlAmt
    change_per := item.positionEval.pnlPerc
    market_val := item.positionEval.marketValueAmt }

/-- Insertion-ordered dictionary, as Python dicts: a key-value list with
distinct keys. -/
abbrev Dict (V : Type) : Type :=
  List (String × V)

/-- Python dict assignment `d[k] = v`: replace the value in place when the
key is present, append the pair otherwise. -/
def dictInsert {V : Type} (d : Dict V) (k : String) (v : V) : Dict V :=
  if d.any (fun pr => pr.1 == k) then
    d.map (fun pr => if pr.1 = k then (k, v) else pr)
  else
    d ++ [(k, v)]

/-- The symbol a position is keyed under: the second semicolon-delimited
field of `finInstrument.quoteIdKey` (nbapi.py line 480). `none` models the
`IndexError` Python raises when the key has no second field. -/
def deriveSymbol (item : Position) : Option String :=
  (pySplitSemi item.finInstrument.quoteIdKey)[1]?

/-- The loop of `get_positions` (nbapi.py lines 479-488): each position is
written into the dict under its derived symbol. -/
def posLoop : Dict PositionReturn → List Position → Except Err (Dict PositionReturn)
  | d, [] => .ok d
  | d, item :: rest =>
    match deriveSymbol item with
    | none => .error Err.indexError
    | some symbol => posLoop (dictInsert d symbol (mkPositionReturn item)) rest

/-- Per-currency slice of the assets-detail response: only `cashAmt` and
`positionList` are read. -/
structure CurrencyDetail where
  cashAmt : Rat
  positionList : List Position
  deriving Repr, DecidableEq

/-- The `accountAssetDetailList[0]` object of the assets-detail response:
the account's native currency code and the currency-keyed detail dict. -/
structure AssetsDetail where
  acctCurrCd : String
  assetsDetailByCurrencyList : List (String × CurrencyDetail)
  deriving Repr, DecidableEq

/-- `NationalBank.get_positions` (nbapi.py lines 456-490): resolve the
native-currency position list, raise `No Positions Found` when it is
empty, otherwise build the per-symbol dict. The assets-detail response is
passed in place of the GET; a missing currency key is Python's
`KeyError`. -/
def get_positions (detail : AssetsDetail) : Except Err (Dict PositionReturn) :=
  match List.lookup detail.acctCurrCd detail.assetsDetailByCurrencyList with
  | none => .error Err.keyError
  | some cd =>
    if cd.positionList.length = 0 then .error Err.noPositions
    else posLoop [] cd.positionList

/-! ### Demo values used by witness theorems -/

/-- A fixed stock order used as the server-echoed order in witnesses. -/
def demoStockOrder : StockOrder :=
  { ordId := some "ORD-1"
    acctNo := "A1"
    operation := "BUY"
    ordQty := "1"
    expiry := "DAY"
    expiryDt := none
    restriction := "NONE"
    phone := "000-000-0000"
    finInstrument :=
      { marketSymbol :=
          { symbolCd := "AAPL", symbolCurrCd := "USD", symbolCntryCd := "USA" }
        finInstrumentTypeCd := "STOCK" }
    limitPrice := none
    priceType := "MARKET"
    stopLimitPrice := none }

/-- A validation server that echoes `demoStockOrder` with no
`messageList`. -/
def demoServer : ValidationData → ValidationResponse :=
  fun _ => { stockOrder := demoStockOrder, messageList := none }

/-- An order-submission server that echoes `demoStockOrder`. -/
def demoOrderServer : OrderData → OrderResponse :=
  fun _ => { stockOrder := demoStockOrder }

/-- The request body `validationRequest 0 "A1" "buy" 1 "aapl" "usd" none 5`
evaluates to (expiry day 5 is a Saturday, rolled to Monday day 7). -/
def c1DemoReq : ValidationData :=
  { stockOrder :=
      { ordId := none
        acctNo := "A1"
        operation := "BUY"
        ordQty := "1"
        expiry := "DATE"
        expiryDt := some 7
        restriction := "NONE"
        phone := "000-000-0000"
        finInstrument :=
          { marketSymbol :=
              { symbolCd := "AAPL", symbolCurrCd := "USD", symbolCntryCd := "USA" }
            finInstrumentTypeCd := "STOCK" }
        limitPrice := none
        priceType := "MARKET"
        stopLimitPrice := none }
    mode := "INSERT" }

/-- The request body `validationRequest 0 "A1" "buy" 1 "aapl" "usd" none 0`
evaluates to (same-day order, no expiry date). -/
def demoReqDay : ValidationData :=
  { stockOrder :=
      { ordId := none
        acctNo := "A1"
        operation := "BUY"
        ordQty := "1"
        expiry := "DAY"
        expiryDt := none
        restriction := "NONE"
        phone := "000-000-0000"
        finInstrument :=
          { marketSymbol :=
              { symbolCd := "AAPL", symbolCurrCd := "USD", symbolCntryCd := "USA" }
            finInstrumentTypeCd := "STOCK" }
        limitPrice := none
        priceType := "MARKET"
        stopLimitPrice := none }
    mode := "INSERT" }

/-- The order payload `validate` returns against `demoServer`: the echoed
`demoStockOrder` with the caller's phone written back in. -/
def demoOd (phone : String) : OrderData :=
  { stockOrder := { demoStockOrder with phone := phone }, warnsNoList := none }

/-- A validation server whose response carries a representative-processing
message among its warnings. -/
def repServer : ValidationData → ValidationResponse :=
  fun _ =>
    { stockOrder := demoStockOrder
      messageList := some
        [{ msgId := "W1"
           message := "note: your order will be processed by one of our representatives today" },
         { msgId := "W2", message := "minor warning" }] }

/-- A validation server whose response carries only benign warnings. -/
def warnServer : ValidationData → ValidationResponse :=
  fun _ =>
    { stockOrder := demoStockOrder
      messageList := some
        [{ msgId := "W1", message := "minor warning" },
         { msgId := "W2", message := "another warning" }] }

/-- Demo portfolio: the USD cash account is second in server order. -/
def demoAccounts : List Account :=
  [{ acctTypeDesc := "Cash CAD account", acctNo := "111" },
   { acctTypeDesc := "Cash USD account", acctNo := "222" }]

/-- Demo order records used by the order-lookup witnesses. -/
def demoOrder1 : OrderRecord :=
  { ordId := "O1", operation := "BUY", ordQty := 1, execQty := 0,
    avgExecPrice := 0, orderOpen := true }

/-- Second demo order record. -/
def demoOrder2 : OrderRecord :=
  { ordId := "O2", operation := "SELL", ordQty := 2, execQty := 2,
    avgExecPrice := 5, orderOpen := false }

/-- First demo position; its composite key derives symbol `AAPL`. -/
def c10Pos1 : Position :=
  { finInstrument := { quoteIdKey := "AC;AAPL;USA" }
    quantity := 3
    positionEval :=
      { avgCostPrice := 10, pnlAmt := 2, pnlPerc := 5, marketValueAmt := 32 } }

/-- Second demo position; its different composite key derives the same
symbol `AAPL`. -/
def c10Pos2 : Position :=
  { finInstrument := { quoteIdKey := "EQ;AAPL;USA" }
    quantity := 7
    positionEval :=
      { avgCostPrice := 11, pnlAmt := 1, pnlPerc := 2, marketValueAmt := 78 } }

/-- Per-currency detail holding the two same-symbol demo positions. -/
def c10Cd : CurrencyDetail :=
  { cashAmt := 100, positionList := [c10Pos1, c10Pos2] }

/-- Assets detail whose USD position list is the two-entry demo list. -/
def c10DemoDetail : AssetsDetail :=
  { acctCurrCd := "USD", assetsDetailByCurrencyList := [("USD", c10Cd)] }

/-- Assets detail whose native-currency position list is empty. -/
def c9EmptyDetail : AssetsDetail :=
  { acctCurrCd := "CAD"
    assetsDetailByCurrencyList := [("CAD", { cashAmt := 50, positionList := [] })] }

end NBApi

namespace NBApi

/-! ### Helper lemmas -/

@[simp]
theorem exceptBind_ok {α β ε : Type} (a : α) (f : α → Except ε β) :
    (Except.ok a >>= f : Except ε β) = f a :=
  rfl

@[simp]
theorem exceptBind_error {α β ε : Type} (e : ε) (f : α → Except ε β) :
    (Except.error e >>= f : Except ε β) = Except.error e :=
  rfl

@[simp]
theorem exceptMap_ok {α β ε : Type} (f : α → β) (a : α) :
    (f <$> Except.ok a : Except ε β) = Except.ok (f a) :=
  rfl

@[simp]
theorem exceptMap_error {α β ε : Type} (f : α → β) (e : ε) :
    (f <$> Except.error e : Except ε β) = Except.error e :=
  rfl

@[simp]
theorem exceptPure {α ε : Type} (a : α) :
    (pure a : Except ε α) = Except.ok a :=
  rfl

theorem validationRequest_ok_iff (today : Int) (account_id side : String)
    (qty : Int) (symbol currency : String) (limit_price : Option Rat)
    (days_till_expiration : Int) (req : ValidationData) :
    validationRequest today account_id side qty symbol currency limit_price
      days_till_expiration = .ok req ↔
    ∃ cntry, country (pyUpper currency) = some cntry ∧
      req = { stockOrder :=
                { ordId := none
                  acctNo := account_id
                  operation := pyUpper side
                  ordQty := toString qty
                  expiry := (expiryPair today days_till_expiration).1
                  expiryDt := (expiryPair today days_till_expiration).2
                  restriction := "NONE"
                  phone := "000-000-0000"
                  finInstrument :=
                    { marketSymbol :=
                        { symbolCd := pyUpper symbol
                          symbolCurrCd := pyUpper currency
                          symbolCntryCd := cntry }
                      finInstrumentTypeCd := "STOCK" }
                  limitPrice := limit_price
                  priceType := if limit_price.isSome then "SPECIFIC" else "MARKET"
                  stopLimitPrice := none }
              mode := "INSERT" } := by
  unfold validationRequest
  cases hc : country (pyUpper currency)
  · simp [hc]
  · simp [hc]
    exact eq_comm

theorem adjustExpiry_spec (d : Int) :
    (weekday d = 5 → adjustExpiry d = d + 2) ∧
    (weekday d = 6 → adjustExpiry d = d + 1) ∧
    (weekday d ≠ 5 → weekday d ≠ 6 → adjustExpiry d = d) ∧
    weekday (adjustExpiry d) ≠ 5 ∧ weekday (adjustExpiry d) ≠ 6 := by
  have h : adjustExpiry d =
      if d % 7 = 5 then d + 2 else if d % 7 = 6 then d + 1 else d := rfl
  unfold weekday
  rw [h]
  by_cases h5 : d % 7 = 5 <;> by_cases h6 : d % 7 = 6 <;>
    simp [h5, h6] <;> omega

theorem collectWarnings_error_of_rep (msgs : List ValidationMessage)
    (m : ValidationMessage) (hm : m ∈ msgs)
    (hrep : pyContains m.message repMsg = true) :
    collectWarnings msgs = .error Err.orderRejected := by
  induction msgs with
  | nil => cases hm
  | cons a ms ih =>
    rcases List.mem_cons.mp hm with rfl | hm'
    · simp [collectWarnings, hrep]
    · by_cases ha : pyContains a.message repMsg
      · simp [collectWarnings, ha]
      · simp [collectWarnings, ha, ih hm']

theorem collectWarnings_ok_of_no_rep (msgs : List ValidationMessage)
    (h : ∀ m ∈ msgs, pyContains m.message repMsg = false) :
    collectWarnings msgs = .ok (msgs.map (fun m => m.msgId)) := by
  induction msgs with
  | nil => simp [collectWarnings]
  | cons a ms ih =>
    have ha := h a (List.mem_cons_self a ms)
    simp [collectWarnings, ha,
      ih (fun m hm => h m (List.mem_cons_of_mem a hm))]

/-! ### Claim theorems -/

/-- Claim C1: in `validate`, for every `days_till_expiration > 0` the expiry
date is today plus the offset, moved 2 days later when that lands on a
Saturday and 1 day later when it lands on a Sunday, unchanged otherwise;
the resulting expiry date is never a Saturday or a Sunday, and it is the
date carried in the request's `expiryDt` field (mode `DATE`). -/
theorem c1_expiry_weekend_rollover (today days_till_expiration : Int)
    (hpos : 0 < days_till_expiration)
    (account_id side symbol currency : String) (qty : Int)
    (limit_price : Option Rat) (req : ValidationData)
    (hreq : validationRequest today account_id side qty symbol currency
      limit_price days_till_expiration = .ok req) :
    req.stockOrder.expiry = "DATE" ∧
    req.stockOrder.expiryDt =
      some (adjustExpiry (today + days_till_expiration)) ∧
    (weekday (today + days_till_expiration) = 5 →
      adjustExpiry (today + days_till_expiration) =
        today + days_till_expiration + 2) ∧
    (weekday (today + days_till_expiration) = 6 →
      adjustExpiry (today + days_till_expiration) =
        today + days_till_expiration + 1) ∧
    (weekday (today + days_till_expiration) ≠ 5 →
      weekday (today + days_till_expiration) ≠ 6 →
      adjustExpiry (today + days_till_expiration) =
        today + days_till_expiration) ∧
    weekday (adjustExpiry (today + days_till_expiration)) ≠ 5 ∧
    weekday (adjustExpiry (today + days_till_expiration)) ≠ 6 := by
  have hd : days_till_expiration ≠ 0 := by omega
  rcases (validationRequest_ok_iff _ _ _ _ _ _ _ _ _).mp hreq with ⟨cntry, _, rfl⟩
  have hs := adjustExpiry_spec (today + days_till_expiration)
  simp only [expiryPair, hd, if_neg]
  exact ⟨rfl, rfl, hs.1, hs.2.1, hs.2.2.1, hs.2.2.2.1, hs.2.2.2.2⟩

/-- Witness for C1: with `today = 0` (a Monday) and offset 5 the raw expiry
day 5 is a Saturday and rolls to day 7, a Monday. -/
theorem c1_expiry_weekend_rollover_witness :
    c1DemoReq.stockOrder.expiry = "DATE" ∧
    c1DemoReq.stockOrder.expiryDt = some (adjustExpiry (0 + 5)) ∧
    (weekday ((0 : Int) + 5) = 5 → adjustExpiry (0 + 5) = 0 + 5 + 2) ∧
    (weekday ((0 : Int) + 5) = 6 → adjustExpiry (0 + 5) = 0 + 5 + 1) ∧
    (weekday ((0 : Int) + 5) ≠ 5 → weekday ((0 : Int) + 5) ≠ 6 →
      adjustExpiry (0 + 5) = 0 + 5) ∧
    weekday (adjustExpiry (0 + 5)) ≠ 5 ∧
    weekday (adjustExpiry (0 + 5)) ≠ 6 :=
  c1_expiry_weekend_rollover 0 5 (by norm_num) "A1" "buy" "aapl" "usd" 1 none
    c1DemoReq (by rfl)

/-- Claim C2: the phone field sent in the validation request body is always
the hardcoded placeholder `000-000-0000` (the caller-supplied phone is
discarded for the wire call), and the caller's phone is written back into
the `stockOrder` of the returned payload, so a successful `validate`
always returns a payload whose phone equals the phone argument. -/
theorem c2_phone_placeholder_reinjected (today : Int)
    (account_id side : String) (qty : Int) (symbol currency phone : String)
    (limit_price : Option Rat) (days_till_expiration : Int)
    (server : ValidationData → ValidationResponse) :
    (∀ req, validationRequest today account_id side qty symbol currency
        limit_price days_till_expiration = .ok req →
      req.stockOrder.phone = "000-000-0000") ∧
    (∀ od, validate today account_id side qty symbol currency phone
        limit_price days_till_expiration server = .ok od →
      od.stockOrder.phone = phone) := by
  constructor
  · intro req hreq
    rcases (validationRequest_ok_iff _ _ _ _ _ _ _ _ _).mp hreq with ⟨c, _, rfl⟩
    rfl
  · intro od hod
    cases hreq : validationRequest today account_id side qty symbol currency
        limit_price days_till_expiration with
    | error e => simp [validate, hreq] at hod
    | ok req =>
      simp only [validate, hreq, exceptBind_ok] at hod
      cases hml : (server req).messageList with
      | none =>
        simp [hml] at hod
        rw [← hod]
      | some msgs =>
        cases hw : collectWarnings msgs with
        | error e => simp [hml, hw] at hod
        | ok w =>
          simp [hml, hw] at hod
          rw [← hod]

/-- Witness for C2: against `demoServer` the validation request carries the
placeholder phone while the returned payload carries the caller's. -/
theorem c2_phone_placeholder_reinjected_witness :
    demoReqDay.stockOrder.phone = "000-000-0000" ∧
    (demoOd "514-555-0100").stockOrder.phone = "514-555-0100" :=
  ⟨(c2_phone_placeholder_reinjected 0 "A1" "buy" 1 "aapl" "usd" "514-555-0100"
      none 0 demoServer).1 demoReqDay (by rfl),
   (c2_phone_placeholder_reinjected 0 "A1" "buy" 1 "aapl" "usd" "514-555-0100"
      none 0 demoServer).2 (demoOd "514-555-0100") (by rfl)⟩

/-- Claim C3: `place_market_order` and `place_limit_order` first call
`validate` with the same intent; on success the one body POSTed to the
order-submission endpoint is exactly the payload `validate` returned, and
the broker-assigned `ordId` from the submission response is returned; when
validation fails nothing is POSTed to the submission endpoint. -/
theorem c3_orders_post_validated_payload (today : Int)
    (symbol account_id currency side : String) (qty : Int) (phone : String)
    (limit_price : Rat) (days_till_expiration : Int)
    (validServer : ValidationData → ValidationResponse)
    (orderServer : OrderData → OrderResponse) :
    (∀ od, validate today account_id side qty symbol currency phone none 0
        validServer = .ok od →
      place_market_order today symbol account_id currency side qty phone
          validServer orderServer =
        (.ok ((orderServer od).stockOrder.ordId), [od])) ∧
    (∀ e, validate today account_id side qty symbol currency phone none 0
        validServer = .error e →
      place_market_order today symbol account_id currency side qty phone
          validServer orderServer = (.error e, [])) ∧
    (∀ od, validate today account_id side qty symbol currency phone
        (some limit_price) days_till_expiration validServer = .ok od →
      place_limit_order today symbol account_id currency side qty phone
          limit_price days_till_expiration validServer orderServer =
        (.ok ((orderServer od).stockOrder.ordId), [od])) ∧
    (∀ e, validate today account_id side qty symbol currency phone
        (some limit_price) days_till_expiration validServer = .error e →
      place_limit_order today symbol account_id currency side qty phone
          limit_price days_till_expiration validServer orderServer =
        (.error e, [])) := by
  refine ⟨?_, ?_, ?_, ?_⟩ <;> intro x hx <;>
    simp [place_market_order, place_limit_order, hx]

/-- Witness for C3: a market and a limit order against the demo servers
submit exactly the validated payload and return its `ordId`. -/
theorem c3_orders_post_validated_payload_witness :
    place_market_order 0 "aapl" "A1" "usd" "buy" 1 "514-555-0100"
        demoServer demoOrderServer =
      (.ok ((demoOrderServer (demoOd "514-555-0100")).stockOrder.ordId),
        [demoOd "514-555-0100"]) ∧
    place_limit_order 0 "aapl" "A1" "usd" "buy" 1 "514-555-0100" 5 3
        demoServer demoOrderServer =
      (.ok ((demoOrderServer (demoOd "514-555-0100")).stockOrder.ordId),
        [demoOd "514-555-0100"]) :=
  ⟨(c3_orders_post_validated_payload 0 "aapl" "A1" "usd" "buy" 1
      "514-555-0100" 5 3 demoServer demoOrderServer).1
      (demoOd "514-555-0100") (by rfl),
   (c3_orders_post_validated_payload 0 "aapl" "A1" "usd" "buy" 1
      "514-555-0100" 5 3 demoServer demoOrderServer).2.2.1
      (demoOd "514-555-0100") (by rfl)⟩

/-- Claim C4: when the validation response's message list contains a
message mentioning representative processing, `validate` raises the
order-rejected error no matter what other warnings are present; when it
contains no such message, `validate` succeeds and returns the `msgId` of
every message as the warning-code list. -/
theorem c4_rep_warning_rejects (today : Int) (account_id side : String)
    (qty : Int) (symbol currency phone : String) (limit_price : Option Rat)
    (days_till_expiration : Int)
    (server : ValidationData → ValidationResponse) (req : ValidationData)
    (msgs : List ValidationMessage)
    (hreq : validationRequest today account_id side qty symbol currency
      limit_price days_till_expiration = .ok req)
    (hml : (server req).messageList = some msgs) :
    ((∃ m ∈ msgs, pyContains m.message repMsg = true) →
      validate today account_id side qty symbol currency phone limit_price
        days_till_expiration server = .error Err.orderRejected) ∧
    ((∀ m ∈ msgs, pyContains m.message repMsg = false) →
      validate today account_id side qty symbol currency phone limit_price
          days_till_expiration server =
        .ok { stockOrder := { (server req).stockOrder with phone := phone }
              warnsNoList := some (msgs.map (fun m => m.msgId)) }) := by
  constructor
  · rintro ⟨m, hm, hrep⟩
    have hw := collectWarnings_error_of_rep msgs m hm hrep
    simp [validate, hreq, hml, hw]
  · intro h
    have hw := collectWarnings_ok_of_no_rep msgs h
    simp [validate, hreq, hml, hw]

/-- Witness for C4: a response with a representative message among two
warnings is rejected; a response with two benign warnings returns both
warning codes. -/
theorem c4_rep_warning_rejects_witness :
    validate 0 "A1" "buy" 1 "aapl" "usd" "514-555-0100" none 0 repServer =
      .error Err.orderRejected ∧
    validate 0 "A1" "buy" 1 "aapl" "usd" "514-555-0100" none 0 warnServer =
      .ok { stockOrder := { demoStockOrder with phone := "514-555-0100" }
            warnsNoList := some ["W1", "W2"] } :=
  ⟨(c4_rep_warning_rejects 0 "A1" "buy" 1 "aapl" "usd" "514-555-0100" none 0
      repServer demoReqDay
      [{ msgId := "W1"
         message := "note: your order will be processed by one of our representatives today" },
       { msgId := "W2", message := "minor warning" }] (by rfl) (by rfl)).1
      ⟨{ msgId := "W1"
         message := "note: your order will be processed by one of our representatives today" },
       by simp, by decide⟩,
   (c4_rep_warning_rejects 0 "A1" "buy" 1 "aapl" "usd" "514-555-0100" none 0
      warnServer demoReqDay
      [{ msgId := "W1", message := "minor warning" },
       { msgId := "W2", message := "another warning" }] (by rfl) (by rfl)).2
      (by decide)⟩

/-- Counterexample for C5 as stated: with currency `eur`, `validate` does
not proceed silently with an unset country; it raises the Python
`UnboundLocalError` on the never-assigned local `country`. -/
theorem c5_counterexample :
    validate 0 "A1" "buy" 1 "abc" "eur" "555-000-1111" none 0 demoServer =
      .error (Err.unboundLocal "country") :=
  rfl

/-- Claim C5 as amended: for every call to `validate` with a currency whose
uppercase form is neither `USD` nor `CAD`, the local variable `country` is
never assigned, so building the request raises an unbound-local error
(Python `UnboundLocalError`) and the operation does not proceed. -/
theorem c5_unknown_currency_raises (today : Int) (account_id side : String)
    (qty : Int) (symbol currency phone : String) (limit_price : Option Rat)
    (days_till_expiration : Int)
    (server : ValidationData → ValidationResponse)
    (h1 : pyUpper currency ≠ "USD") (h2 : pyUpper currency ≠ "CAD") :
    validate today account_id side qty symbol currency phone limit_price
      days_till_expiration server = .error (Err.unboundLocal "country") := by
  have hc : country (pyUpper currency) = none := by simp [country, h1, h2]
  have hreq : validationRequest today account_id side qty symbol currency
      limit_price days_till_expiration = .error (Err.unboundLocal "country") := by
    unfold validationRequest
    simp [hc]
  simp [validate, hreq]

/-- Witness for C5 (amended): currency `eur` raises the unbound-local
error. -/
theorem c5_unknown_currency_raises_witness :
    validate 0 "A1" "sell" 2 "xyz" "eur" "555-000-1111" none 0 demoServer =
      .error (Err.unboundLocal "country") :=
  c5_unknown_currency_raises 0 "A1" "sell" 2 "xyz" "eur" "555-000-1111" none 0
    demoServer (by decide) (by decide)

theorem accountScan_eq_find (c a : String) (l : List Account) :
    accountScan c a l =
      match l.find? (fun item => pyContains item.acctTypeDesc c &&
          pyContains item.acctTypeDesc a) with
      | some item => .ok item.acctNo
      | none => .error Err.accountNotFound := by
  induction l with
  | nil => rfl
  | cons item rest ih =>
    by_cases h : (pyContains item.acctTypeDesc c &&
        pyContains item.acctTypeDesc a) = true
    · simp [accountScan, List.find?_cons_of_pos, h]
    · rw [List.find?_cons_of_neg _ (by simpa using h)]
      rw [← ih]
      simp only [accountScan]
      rw [if_neg (by simpa using h)]

/-- Claim C6: `get_account_id` uppercases the currency, title-cases the
account type, scans the server-returned list in order and returns the
`acctNo` of the first account whose description contains both normalized
substrings; when no account matches it raises the account-not-found
error. -/
theorem c6_get_account_id_first_match (currency_type account_type : String)
    (accountList : List Account) :
    (get_account_id currency_type account_type accountList =
      match accountList.find? (fun item =>
          pyContains item.acctTypeDesc (pyUpper currency_type) &&
          pyContains item.acctTypeDesc (pyTitle account_type)) with
      | some item => .ok item.acctNo
      | none => .error Err.accountNotFound) ∧
    ((∀ item ∈ accountList,
        ¬(pyContains item.acctTypeDesc (pyUpper currency_type) = true ∧
          pyContains item.acctTypeDesc (pyTitle account_type) = true)) →
      get_account_id currency_type account_type accountList =
        .error Err.accountNotFound) := by
  constructor
  · exact accountScan_eq_find (pyUpper currency_type) (pyTitle account_type)
      accountList
  · intro h
    have hfind : accountList.find? (fun item =>
        pyContains item.acctTypeDesc (pyUpper currency_type) &&
        pyContains item.acctTypeDesc (pyTitle account_type)) = none := by
      rw [List.find?_eq_none]
      intro item hitem
      simpa using h item hitem
    rw [get_account_id, accountScan_eq_find, hfind]

/-- Witness for C6: the first matching account in server order wins, and a
list without a match raises account-not-found. -/
theorem c6_get_account_id_first_match_witness :
    get_account_id "usd" "cash" [{ acctTypeDesc := "Tfsa CAD account", acctNo := "111" }] =
      .error Err.accountNotFound :=
  (c6_get_account_id_first_match "usd" "cash"
    [{ acctTypeDesc := "Tfsa CAD account", acctNo := "111" }]).2 (by decide)

/-- Claim C7: `validate` derives its request fields deterministically: the
side, symbol and currency are uppercased, the quantity becomes its string
form, the price type is `SPECIFIC` exactly when a limit price is supplied
and `MARKET` otherwise, and the expiry is mode `DAY` with no date exactly
when the expiration offset is 0; in particular the
`buy 10 aapl usd` intent yields side `BUY`, qty `"10"`, symbol `AAPL`,
country `USA`, price type `MARKET` and expiry `DAY`. -/
theorem c7_request_field_derivation :
    (∀ (today : Int) (account_id side : String) (qty : Int)
        (symbol currency : String) (limit_price : Option Rat)
        (days_till_expiration : Int) (req : ValidationData),
      validationRequest today account_id side qty symbol currency limit_price
          days_till_expiration = .ok req →
        req.stockOrder.operation = pyUpper side ∧
        req.stockOrder.finInstrument.marketSymbol.symbolCd = pyUpper symbol ∧
        req.stockOrder.finInstrument.marketSymbol.symbolCurrCd = pyUpper currency ∧
        country (pyUpper currency) =
          some req.stockOrder.finInstrument.marketSymbol.symbolCntryCd ∧
        req.stockOrder.ordQty = toString qty ∧
        (req.stockOrder.priceType = "SPECIFIC" ↔ limit_price.isSome) ∧
        (req.stockOrder.priceType = "MARKET" ↔ limit_price = none) ∧
        ((req.stockOrder.expiry = "DAY" ∧ req.stockOrder.expiryDt = none) ↔
          days_till_expiration = 0)) ∧
    (∀ (today : Int) (account_id : String) (req : ValidationData),
      validationRequest today account_id "buy" 10 "aapl" "usd" none 0 = .ok req →
        req.stockOrder.operation = "BUY" ∧
        req.stockOrder.ordQty = "10" ∧
        req.stockOrder.finInstrument.marketSymbol.symbolCd = "AAPL" ∧
        req.stockOrder.finInstrument.marketSymbol.symbolCntryCd = "USA" ∧
        req.stockOrder.priceType = "MARKET" ∧
        req.stockOrder.expiry = "DAY" ∧
        req.stockOrder.expiryDt = none) := by
  have main : ∀ (today : Int) (account_id side : String) (qty : Int)
      (symbol currency : String) (limit_price : Option Rat)
      (days_till_expiration : Int) (req : ValidationData),
      validationRequest today account_id side qty symbol currency limit_price
          days_till_expiration = .ok req →
        req.stockOrder.operation = pyUpper side ∧
        req.stockOrder.finInstrument.marketSymbol.symbolCd = pyUpper symbol ∧
        req.stockOrder.finInstrument.marketSymbol.symbolCurrCd = pyUpper currency ∧
        country (pyUpper currency) =
          some req.stockOrder.finInstrument.marketSymbol.symbolCntryCd ∧
        req.stockOrder.ordQty = toString qty ∧
        (req.stockOrder.priceType = "SPECIFIC" ↔ limit_price.isSome) ∧
        (req.stockOrder.priceType = "MARKET" ↔ limit_price = none) ∧
        ((req.stockOrder.expiry = "DAY" ∧ req.stockOrder.expiryDt = none) ↔
          days_till_expiration = 0) := by
    intro today account_id side qty symbol currency limit_price days req hreq
    rcases (validationRequest_ok_iff _ _ _ _ _ _ _ _ _).mp hreq with ⟨c, hc, rfl⟩
    refine ⟨rfl, rfl, rfl, hc, rfl, ?_, ?_, ?_⟩
    · cases limit_price <;> simp
    · cases limit_price <;> simp
    · by_cases hd : days = 0 <;> simp [expiryPair, hd]
  refine ⟨main, ?_⟩
  intro today account_id req hreq
  obtain ⟨h1, h2, _, h4, h5, _, h7, h8⟩ :=
    main today account_id "buy" 10 "aapl" "usd" none 0 req hreq
  have hc : (some "USA" : Option String) =
      some req.stockOrder.finInstrument.marketSymbol.symbolCntryCd := h4
  obtain ⟨hday, hdt⟩ := h8.mpr rfl
  exact ⟨by rw [h1]; rfl, by rw [h5]; rfl, by rw [h2]; rfl,
    (Option.some.inj hc).symm, h7.mpr rfl, hday, hdt⟩

/-- Witness for C7: the scenario request computed against account `A1`. -/
theorem c7_request_field_derivation_witness :
    demoReqDay.stockOrder.operation = "BUY" ∧
    demoReqDay.stockOrder.ordQty = "1" ∧
    demoReqDay.stockOrder.finInstrument.marketSymbol.symbolCd = "AAPL" ∧
    demoReqDay.stockOrder.finInstrument.marketSymbol.symbolCurrCd = "USD" ∧
    country "USD" = some demoReqDay.stockOrder.finInstrument.marketSymbol.symbolCntryCd ∧
    demoReqDay.stockOrder.ordQty = toString (1 : Int) ∧
    (demoReqDay.stockOrder.priceType = "SPECIFIC" ↔ (none : Option Rat).isSome) ∧
    (demoReqDay.stockOrder.priceType = "MARKET" ↔ (none : Option Rat) = none) ∧
    ((demoReqDay.stockOrder.expiry = "DAY" ∧ demoReqDay.stockOrder.expiryDt = none) ↔
      (0 : Int) = 0) := by
  have h := (c7_request_field_derivation).1 0 "A1" "buy" 1 "aapl" "usd" none 0
    demoReqDay (by rfl)
  exact ⟨h.1, h.2.2.2.2.1, h.2.1, h.2.2.1, h.2.2.2.1, h.2.2.2.2.1, h.2.2.2.2.2.1,
    h.2.2.2.2.2.2.1, h.2.2.2.2.2.2.2⟩

theorem findOrder_eq_none_of (order_id : String) (l : List OrderRecord)
    (h : ∀ x ∈ l, x.ordId ≠ order_id) : findOrder order_id l = none := by
  induction l with
  | nil => rfl
  | cons a rest ih =>
    have ha := h a (List.mem_cons_self a rest)
    simp only [findOrder, if_neg ha]
    exact ih (fun x hx => h x (List.mem_cons_of_mem a hx))

theorem findOrder_append_first (order_id : String) (pre post : List OrderRecord)
    (it : OrderRecord) (hpre : ∀ x ∈ pre, x.ordId ≠ order_id)
    (hit : it.ordId = order_id) :
    findOrder order_id (pre ++ it :: post) = some it := by
  induction pre with
  | nil => simp [findOrder, hit]
  | cons a rest ih =>
    have ha := hpre a (List.mem_cons_self a rest)
    simp only [List.cons_append, findOrder, if_neg ha]
    exact ih (fun x hx => hpre x (List.mem_cons_of_mem a hx))

/-- Claim C8: `get_order` and `get_order_status` raise the order-not-found
error on an empty or non-matching order list; when a matching entry
exists, `get_order` returns the first matching entry's projected fields
and `get_order_status` returns only its open/closed flag. -/
theorem c8_order_lookup (orderList : List OrderRecord) (order_id : String) :
    ((∀ x ∈ orderList, x.ordId ≠ order_id) →
      get_order orderList order_id = .error Err.orderNotFound ∧
      get_order_status orderList order_id = .error Err.orderNotFound) ∧
    (∀ pre it post, orderList = pre ++ it :: post →
      (∀ x ∈ pre, x.ordId ≠ order_id) → it.ordId = order_id →
      get_order orderList order_id = .ok (mkOrderReturn it) ∧
      get_order_status orderList order_id = .ok it.orderOpen) := by
  constructor
  · intro h
    have hf := findOrder_eq_none_of order_id orderList h
    exact ⟨by simp [get_order, hf], by simp [get_order_status, hf]⟩
  · intro pre it post hsplit hpre hit
    subst hsplit
    have hf := findOrder_append_first order_id pre post it hpre hit
    exact ⟨by simp [get_order, hf], by simp [get_order_status, hf]⟩

/-- Witness for C8: the empty list raises order-not-found, and `O2`, second
in the demo list, is found with its projected fields. -/
theorem c8_order_lookup_witness :
    (get_order [] "O9" = .error Err.orderNotFound ∧
      get_order_status [] "O9" = .error Err.orderNotFound) ∧
    (get_order [demoOrder1, demoOrder2] "O2" = .ok (mkOrderReturn demoOrder2) ∧
      get_order_status [demoOrder1, demoOrder2] "O2" = .ok demoOrder2.orderOpen) :=
  ⟨(c8_order_lookup [] "O9").1 (by simp),
   (c8_order_lookup [demoOrder1, demoOrder2] "O2").2 [demoOrder1] demoOrder2 []
     (by rfl) (by decide) (by rfl)⟩

end NBApi

namespace NBApi

theorem lookup_map_replace {V : Type} (d : Dict V) (k s : String) (v : V) :
    List.lookup s (d.map (fun pr => if pr.1 = k then (k, v) else pr)) =
      if s = k ∧ d.any (fun pr => pr.1 == k) = true then some v
      else List.lookup s d := by
  induction d with
  | nil => simp
  | cons pr rest ih =>
    obtain ⟨a, b⟩ := pr
    simp only [List.map_cons, List.any_cons]
    by_cases hak : a = k
    · rw [if_pos hak]
      by_cases hsk : s = k
      · have h2 : (s == k) = true := by simp [hsk]
        simp [List.lookup, h2, hsk, hak]
      · have h2 : (s == k) = false := by simp [hsk]
        have h3 : (s == a) = false := by simp [hak, hsk]
        simp [List.lookup, h2, h3, hsk, ih]
    · rw [if_neg hak]
      have h1 : (a == k) = false := by simp [hak]
      simp only [h1, Bool.false_or]
      by_cases hsk : s = a
      · have h2 : (s == a) = true := by simp [hsk]
        have hskk : ¬s = k := by rw [hsk]; exact hak
        simp [List.lookup, h2, hskk]
      · have h2 : (s == a) = false := by simp [hsk]
        simp [List.lookup, h2, ih]

theorem lookup_append_single {V : Type} (d : Dict V) (k s : String) (v : V) :
    List.lookup s (d ++ [(k, v)]) =
      match List.lookup s d with
      | some b => some b
      | none => if s = k then some v else none := by
  induction d with
  | nil =>
    by_cases h : s = k
    · have h2 : (s == k) = true := by simp [h]
      simp [List.lookup, h2, h]
    · have h2 : (s == k) = false := by simp [h]
      simp [List.lookup, h2, h]
  | cons pr rest ih =>
    obtain ⟨a, b⟩ := pr
    by_cases h : s = a
    · have h2 : (s == a) = true := by simp [h]
      simp [List.lookup, h2]
    · have h2 : (s == a) = false := by simp [h]
      simp [List.lookup, h2, ih]

theorem lookup_none_of_any_false {V : Type} (d : Dict V) (k : String)
    (h : d.any (fun pr => pr.1 == k) = false) : List.lookup k d = none := by
  induction d with
  | nil => rfl
  | cons pr rest ih =>
    obtain ⟨a, b⟩ := pr
    simp only [List.any_cons, Bool.or_eq_false_iff] at h
    have hka : ¬a = k := by simpa using h.1
    have h2 : (k == a) = false := by
      simp only [beq_eq_false_iff_ne, ne_eq]
      intro he
      exact hka he.symm
    simp [List.lookup, h2, ih h.2]

theorem lookup_dictInsert {V : Type} (d : Dict V) (k s : String) (v : V) :
    List.lookup s (dictInsert d k v) =
      if s = k then some v else List.lookup s d := by
  unfold dictInsert
  by_cases hany : d.any (fun pr => pr.1 == k) = true
  · rw [if_pos hany, lookup_map_replace]
    by_cases hsk : s = k
    · simp [hsk, hany]
    · simp [hsk]
  · rw [if_neg hany, lookup_append_single]
    have hf : d.any (fun pr => pr.1 == k) = false := by
      cases hb : d.any (fun pr => pr.1 == k) with
      | false => rfl
      | true => exact absurd hb hany
    by_cases hsk : s = k
    · subst hsk
      rw [lookup_none_of_any_false d s hf]
    · cases hls : List.lookup s d <;> simp [hsk, hls]

theorem mem_dictInsert {V : Type} (d : Dict V) (k : String) (v : V)
    (pr : String × V) (h : pr ∈ dictInsert d k v) : pr ∈ d ∨ pr = (k, v) := by
  unfold dictInsert at h
  by_cases hany : d.any (fun q => q.1 == k) = true
  · rw [if_pos hany] at h
    rcases List.mem_map.mp h with ⟨q, hq, hfq⟩
    by_cases hqk : q.1 = k
    · rw [if_pos hqk] at hfq
      exact Or.inr hfq.symm
    · rw [if_neg hqk] at hfq
      exact Or.inl (hfq ▸ hq)
  · rw [if_neg hany] at h
    rcases List.mem_append.mp h with h1 | h1
    · exact Or.inl h1
    · exact Or.inr (List.mem_singleton.mp h1)

end NBApi

namespace NBApi

theorem posLoop_ok_of_wf (items : List Position) :
    ∀ d : Dict PositionReturn,
      (∀ p ∈ items, (deriveSymbol p).isSome = true) →
      ∃ d', posLoop d items = .ok d' := by
  induction items with
  | nil => exact fun d _ => ⟨d, rfl⟩
  | cons item rest ih =>
    intro d h
    obtain ⟨sym, hsym⟩ := Option.isSome_iff_exists.mp
      (h item (List.mem_cons_self item rest))
    obtain ⟨d', hd'⟩ := ih (dictInsert d sym (mkPositionReturn item))
      (fun p hp => h p (List.mem_cons_of_mem item hp))
    exact ⟨d', by simp [posLoop, hsym, hd']⟩

theorem posLoop_mem (items : List Position) :
    ∀ (d d' : Dict PositionReturn), posLoop d items = .ok d' →
      ∀ pr ∈ d', pr ∈ d ∨
        ∃ p ∈ items, deriveSymbol p = some pr.1 ∧ pr.2 = mkPositionReturn p := by
  induction items with
  | nil =>
    intro d d' h pr hpr
    simp only [posLoop, Except.ok.injEq] at h
    subst h
    exact Or.inl hpr
  | cons item rest ih =>
    intro d d' h pr hpr
    cases hsym : deriveSymbol item with
    | none => simp [posLoop, hsym] at h
    | some sym =>
      simp only [posLoop, hsym] at h
      rcases ih _ _ h pr hpr with hin | ⟨p, hp, hs, he⟩
      · rcases mem_dictInsert _ _ _ _ hin with hd | heq
        · exact Or.inl hd
        · refine Or.inr ⟨item, List.mem_cons_self item rest, ?_, ?_⟩
          · rw [heq]
            exact hsym
          · rw [heq]
      · exact Or.inr ⟨p, List.mem_cons_of_mem item hp, hs, he⟩

theorem posLoop_lookup_isSome_mono (items : List Position) :
    ∀ (d d' : Dict PositionReturn) (s : String), posLoop d items = .ok d' →
      (List.lookup s d).isSome = true → (List.lookup s d').isSome = true := by
  induction items with
  | nil =>
    intro d d' s h hs
    simp only [posLoop, Except.ok.injEq] at h
    subst h
    exact hs
  | cons item rest ih =>
    intro d d' s h hs
    cases hsym : deriveSymbol item with
    | none => simp [posLoop, hsym] at h
    | some sym =>
      simp only [posLoop, hsym] at h
      refine ih _ _ s h ?_
      rw [lookup_dictInsert]
      by_cases hss : s = sym
      · simp [hss]
      · simpa [hss] using hs

theorem posLoop_covers (items : List Position) :
    ∀ (d d' : Dict PositionReturn), posLoop d items = .ok d' →
      ∀ p ∈ items, ∀ s, deriveSymbol p = some s →
        (List.lookup s d').isSome = true := by
  induction items with
  | nil =>
    intro d d' _ p hp
    cases hp
  | cons item rest ih =>
    intro d d' h p hp s hs
    cases hsym : deriveSymbol item with
    | none => simp [posLoop, hsym] at h
    | some sym =>
      simp only [posLoop, hsym] at h
      rcases List.mem_cons.mp hp with rfl | hp'
      · rw [hsym] at hs
        have hss : sym = s := Option.some.inj hs
        subst hss
        refine posLoop_lookup_isSome_mono rest _ _ sym h ?_
        rw [lookup_dictInsert]
        simp
      · exact ih _ _ h p hp' s hs

theorem posLoop_lookup_of_filter_nil (items : List Position) :
    ∀ (d d' : Dict PositionReturn) (s : String), posLoop d items = .ok d' →
      items.filter (fun p => deriveSymbol p == some s) = [] →
      List.lookup s d' = List.lookup s d := by
  induction items with
  | nil =>
    intro d d' s h _
    simp only [posLoop, Except.ok.injEq] at h
    subst h
    rfl
  | cons item rest ih =>
    intro d d' s h hfil
    cases hsym : deriveSymbol item with
    | none => simp [posLoop, hsym] at h
    | some sym =>
      simp only [posLoop, hsym] at h
      rw [List.filter_cons] at hfil
      by_cases hp : (deriveSymbol item == some s) = true
      · rw [if_pos hp] at hfil
        cases hfil
      · rw [if_neg hp] at hfil
        have hne : ¬s = sym := by
          intro he
          subst he
          rw [hsym] at hp
          simp at hp
        rw [ih _ _ s h hfil, lookup_dictInsert, if_neg hne]

theorem posLoop_lookup_last (items : List Position) :
    ∀ (d d' : Dict PositionReturn) (s : String) (p2 : Position),
      posLoop d items = .ok d' →
      (items.filter (fun p => deriveSymbol p == some s)).getLast? = some p2 →
      List.lookup s d' = some (mkPositionReturn p2) := by
  induction items with
  | nil =>
    intro d d' s p2 _ hget
    simp at hget
  | cons item rest ih =>
    intro d d' s p2 h hget
    cases hsym : deriveSymbol item with
    | none => simp [posLoop, hsym] at h
    | some sym =>
      simp only [posLoop, hsym] at h
      rw [List.filter_cons] at hget
      by_cases hp : (deriveSymbol item == some s) = true
      · rw [if_pos hp] at hget
        have hss : sym = s := by
          rw [hsym] at hp
          simpa using hp
        subst hss
        cases hfr : rest.filter (fun p => deriveSymbol p == some sym) with
        | nil =>
          rw [hfr] at hget
          simp only [List.getLast?_singleton, Option.some.injEq] at hget
          subst hget
          rw [posLoop_lookup_of_filter_nil rest _ _ sym h hfr,
            lookup_dictInsert, if_pos rfl]
        | cons q qs =>
          rw [hfr, List.getLast?_cons_cons] at hget
          exact ih _ _ sym p2 h (by rw [hfr]; exact hget)
      · rw [if_neg hp] at hget
        exact ih _ _ s p2 h hget

end NBApi

namespace NBApi

theorem get_positions_eq (detail : AssetsDetail) (cd : CurrencyDetail)
    (hl : List.lookup detail.acctCurrCd detail.assetsDetailByCurrencyList =
      some cd) :
    get_positions detail =
      if cd.positionList.length = 0 then .error Err.noPositions
      else posLoop [] cd.positionList := by
  unfold get_positions
  rw [hl]

/-- Claim C9: on an account whose resolved native-currency position list is
empty, `get_positions` raises the no-positions error; on a non-empty list
(whose composite keys all have a second semicolon-delimited field) it
succeeds, and every entry of the returned mapping is keyed by the symbol
derived from some position's composite instrument key and carries that
position's quantity, average cost, P&L amount, P&L percentage and market
value, with every position's derived symbol present in the mapping. -/
theorem c9_get_positions (detail : AssetsDetail) (cd : CurrencyDetail)
    (hl : List.lookup detail.acctCurrCd detail.assetsDetailByCurrencyList =
      some cd) :
    (cd.positionList = [] → get_positions detail = .error Err.noPositions) ∧
    ((∀ p ∈ cd.positionList, (deriveSymbol p).isSome = true) →
      cd.positionList ≠ [] → (get_positions detail).isOk = true) ∧
    (∀ d, get_positions detail = .ok d →
      (∀ pr ∈ d, ∃ p ∈ cd.positionList,
        deriveSymbol p = some pr.1 ∧ pr.2 = mkPositionReturn p) ∧
      (∀ p ∈ cd.positionList, ∀ s, deriveSymbol p = some s →
        (List.lookup s d).isSome = true)) := by
  refine ⟨?_, ?_, ?_⟩
  · intro he
    rw [get_positions_eq detail cd hl, if_pos (by simp [he])]
  · intro hwf hne
    obtain ⟨d', hd'⟩ := posLoop_ok_of_wf cd.positionList [] hwf
    rw [get_positions_eq detail cd hl,
      if_neg (by simpa [List.length_eq_zero] using hne), hd']
    rfl
  · intro d hd
    rw [get_positions_eq detail cd hl] at hd
    by_cases hlen : cd.positionList.length = 0
    · rw [if_pos hlen] at hd
      simp at hd
    · rw [if_neg hlen] at hd
      constructor
      · intro pr hpr
        rcases posLoop_mem cd.positionList [] d hd pr hpr with hin | hex
        · cases hin
        · exact hex
      · intro p hp s hs
        exact posLoop_covers cd.positionList [] d hd p hp s hs

/-- Witness for C9: the empty-positions account raises no-positions; the
two-position demo account succeeds. -/
theorem c9_get_positions_witness :
    get_positions c9EmptyDetail = .error Err.noPositions ∧
    (get_positions c10DemoDetail).isOk = true :=
  ⟨(c9_get_positions c9EmptyDetail { cashAmt := 50, positionList := [] }
      (by rfl)).1 rfl,
   (c9_get_positions c10DemoDetail c10Cd (by rfl)).2.1 (by decide) (by decide)⟩

/-- Claim C10 (implicit): because `get_positions` keys its result by derived
symbol, when several positions derive the same symbol only the last such
position's data appears in the returned mapping — the mapping at that
symbol is the projection of the last position deriving it — and the result
can have fewer entries than the position list, as the concrete two-position
demo shows. -/
theorem c10_positions_last_wins :
    (∀ (detail : AssetsDetail) (cd : CurrencyDetail) (d : Dict PositionReturn)
        (s : String) (p2 : Position),
      List.lookup detail.acctCurrCd detail.assetsDetailByCurrencyList =
        some cd →
      get_positions detail = .ok d →
      (cd.positionList.filter
        (fun p => deriveSymbol p == some s)).getLast? = some p2 →
      List.lookup s d = some (mkPositionReturn p2)) ∧
    (get_positions c10DemoDetail = .ok [("AAPL", mkPositionReturn c10Pos2)] ∧
      [("AAPL", mkPositionReturn c10Pos2)].length < c10Cd.positionList.length) := by
  refine ⟨?_, by rfl, by decide⟩
  intro detail cd d s p2 hl hd hlast
  rw [get_positions_eq detail cd hl] at hd
  by_cases hlen : cd.positionList.length = 0
  · rw [if_pos hlen] at hd
    simp at hd
  · rw [if_neg hlen] at hd
    exact posLoop_lookup_last cd.positionList [] d s p2 hd hlast

/-- Witness for C10: in the demo account both positions derive `AAPL` and
the mapping holds the second position's data. -/
theorem c10_positions_last_wins_witness :
    List.lookup "AAPL" [("AAPL", mkPositionReturn c10Pos2)] =
      some (mkPositionReturn c10Pos2) :=
  (c10_positions_last_wins).1 c10DemoDetail c10Cd
    [("AAPL", mkPositionReturn c10Pos2)] "AAPL" c10Pos2 (by rfl) (by rfl)
    (by rfl)

end NBApi
